import Mathlib

/-!
Verification of the DataRobot vector-database dynamic resource provider
(`src/infra/components/vector_database_patch.py`).

The provider manipulates Python dicts whose values are strings, ints,
booleans, lists of strings or nested dicts.  We embed those dicts as
association lists over an explicit value type.  A key that is present
with value `None` is distinguished from an absent key, exactly as in
Python (`k in d` versus `d.get(k) is None`).
-/

namespace VDB

/-- Values stored inside a chunking-parameters dict (Python scalars /
lists).  `CVal.none` is Python `None`. -/
inductive CVal where
  | none : CVal
  | bool : Bool → CVal
  | int : Int → CVal
  | str : String → CVal
  | list : List String → CVal
deriving DecidableEq, Repr

/-- A chunking-parameters dict (or any dict of scalar values, such as the
`options` dict): an association list keyed by strings. -/
abbrev CPDict := List (String × CVal)

/-- Top-level property values: scalars or one level of nested dict
(`chunking_parameters`, `options`). -/
inductive PVal where
  | cval : CVal → PVal
  | dict : CPDict → PVal
deriving DecidableEq, Repr

/-- A top-level property map (`props`, `old_props`, `new_props`). -/
abbrev Props := List (String × PVal)

/-- Python `k in d` for a scalar dict. -/
def ccontains (d : CPDict) (k : String) : Bool :=
  d.any (fun kv => kv.1 == k)

/-- Python `d.get(k)` for a scalar dict (`None` when absent). -/
def cget (d : CPDict) (k : String) : CVal :=
  match d.find? (fun kv => kv.1 == k) with
  | some kv => kv.2
  | Option.none => CVal.none

/-- Python `d.copy()` followed by `d.pop(k, None)`. -/
def cremove (d : CPDict) (k : String) : CPDict :=
  d.filter (fun kv => !(kv.1 == k))

/-- Python `d.get(k, default)` for a scalar dict. -/
def getOr (d : CPDict) (k : String) (dflt : CVal) : CVal :=
  if ccontains d k then cget d k else dflt

/-- Python truthiness of a scalar value. -/
def truthy : CVal → Bool
  | CVal.none => false
  | CVal.bool b => b
  | CVal.int n => n != 0
  | CVal.str s => s != ""
  | CVal.list l => !l.isEmpty

/-- Python `k in props` for a top-level property map. -/
def pcontains (d : Props) (k : String) : Bool :=
  d.any (fun kv => kv.1 == k)

/-- Python `props.get(k)` (`None` when absent). -/
def pget (d : Props) (k : String) : PVal :=
  match d.find? (fun kv => kv.1 == k) with
  | some kv => kv.2
  | Option.none => PVal.cval CVal.none

/-- Python `props.get(k, {})` for a key holding a nested dict. -/
def pgetDict (d : Props) (k : String) : CPDict :=
  match pget d k with
  | PVal.dict cp => cp
  | _ => []

/-- Lexicographic code-point comparison of character lists (the order
Python's `sorted` uses on `str`). -/
def charsLe : List Char → List Char → Bool
  | [], _ => true
  | _ :: _, [] => false
  | a :: as, b :: bs =>
    if a < b then true
    else if b < a then false
    else charsLe as bs

/-- Python `<=` on strings: lexicographic by code point. -/
def strLe (a b : String) : Bool := charsLe a.data b.data

/-- Python `sorted(v)` applied to a list-of-strings value (the
`separators` comparison).  On a non-list, non-`None` value the Python
code would raise `TypeError`; such values never occur for `separators`
and are mapped to `[]` here. -/
def sortedOf : CVal → List String
  | CVal.list l => List.insertionSort (fun a b => strLe a b = true) l
  | _ => []

/-- The seven keys compared by `_chunking_params_diff`
(`keys_to_compare` in the source, also the flat-field list used by the
migration branch of `diff`). -/
def keysToCompare : List String :=
  ["embedding_model", "chunking_method", "chunk_size",
   "chunk_overlap_percentage", "separators", "custom_chunking",
   "embedding_validation_id"]

/-- The per-key decision of `_chunking_params_diff`: does `key` count as
changed between the two parameter dicts?  Mirrors the body of the
`for key in keys_to_compare` loop. -/
def keyChanged (old_params new_params : CPDict) (key : String) : Bool :=
  let old_value := cget old_params key
  let new_value := cget new_params key
  if old_value = CVal.none ∧ new_value = CVal.none then
    false
  else if key = "custom_chunking" ∧
      (old_value = CVal.none ∨ old_value = CVal.bool false) ∧
      new_value = CVal.bool false then
    false
  else if key = "separators" ∧ old_value ≠ CVal.none ∧ new_value ≠ CVal.none then
    decide (sortedOf old_value ≠ sortedOf new_value)
  else
    decide (old_value ≠ new_value)

/-- `_chunking_params_diff`: fold over the seven keys accumulating the
changed flag and the list of changed fields. -/
def chunkingParamsDiff (old_params new_params : CPDict) : Bool × List String :=
  keysToCompare.foldl
    (fun acc key =>
      if keyChanged old_params new_params key then (true, acc.2 ++ [key]) else acc)
    (false, [])

/-- The shared `custom_chunking` pre-processing of both comparison
branches of `diff` (lines 160-172 and 200-213 of the source): if the old
dict lacks `custom_chunking` and the new one has it explicitly `False`,
drop it from a copy of the new dict before comparing. -/
def cpDiffWithCustomRule (old_cp new_cp : CPDict) : Bool × List String :=
  if ccontains old_cp "custom_chunking" = false ∧
      cget new_cp "custom_chunking" = CVal.bool false then
    chunkingParamsDiff old_cp (cremove new_cp "custom_chunking")
  else
    chunkingParamsDiff old_cp new_cp

/-- The flat-to-nested migration extraction in `diff` (lines 183-195):
collect the flattened chunking fields present on the old props.  A flat
chunking field always holds a scalar value, so a (never occurring)
nested value is read as `None`. -/
def extractFlat (old_props : Props) : CPDict :=
  keysToCompare.filterMap
    (fun field =>
      if pcontains old_props field then
        some (field,
          match pget old_props field with
          | PVal.cval v => v
          | PVal.dict _ => CVal.none)
      else Option.none)

/-- The chunking-parameters comparison performed by `diff`: nested vs
nested when both props declare `chunking_parameters`, flat vs nested
when only the old props are in the legacy flat shape (detected through
the presence of `embedding_model`), and no comparison otherwise. -/
def diffChunking (old_props new_props : Props) : Bool × List String :=
  if pcontains new_props "chunking_parameters" = true ∧
      pcontains old_props "chunking_parameters" = true then
    cpDiffWithCustomRule (pgetDict old_props "chunking_parameters")
      (pgetDict new_props "chunking_parameters")
  else if pcontains new_props "chunking_parameters" = true ∧
      pcontains old_props "embedding_model" = true then
    cpDiffWithCustomRule (extractFlat old_props)
      (pgetDict new_props "chunking_parameters")
  else
    (false, [])

/-- The result of `diff`.  The Python `replaces` set is a `Finset`. -/
structure DiffResult where
  changes : Bool
  replaces : Finset String
  delete_before_replace : Bool
deriving DecidableEq

/-- `DataRobotVectorDatabaseProvider.diff`. -/
def diff (old_props new_props : Props) : DiffResult :=
  let name_changed : Bool := decide (pget old_props "name" ≠ pget new_props "name")
  let cp := diffChunking old_props new_props
  let changes : Bool := name_changed || cp.1
  let replaces : Finset String :=
    if cp.1 then (cp.2.map (fun field => "chunking_parameters." ++ field)).toFinset
    else ∅
  let replaces := if 3 < replaces.card then {"chunking_parameters"} else replaces
  { changes := changes, replaces := replaces, delete_before_replace := false }

/-- An observation of the remote `VectorDatabase` object: the fields of
the handle that `create` / `read` / `_vdb_to_dict` consult.  Statuses
are the raw strings compared by the source. -/
structure VDBRemote where
  id : String
  name : String
  use_case_id : CVal
  dataset_id : CVal
  embedding_model : CVal
  chunking_method : CVal
  chunk_size : CVal
  chunk_overlap_percentage : CVal
  separators : CVal
  custom_chunking : Bool
  has_embedding_validation_id : Bool
  embedding_validation_id : CVal
  chunks_count : CVal
  execution_status : String
  error_message : String
deriving DecidableEq, Repr

/-- The loop condition `vdb.execution_status not in ["COMPLETED", "FAILED"]`
(negated): is the status terminal? -/
def isTerminal (s : String) : Bool :=
  s == "COMPLETED" || s == "FAILED"

/-- Outcome of the `wait_for_completion` polling loop of `create`.
The `Nat` argument counts the `VectorDatabase.get` refreshes performed,
so the final observed state is `fetch k`.  `fuelOut` is a model artifact
of the explicit fuel; `createModel` supplies enough fuel for it to be
unreachable. -/
inductive CreateOutcome where
  | success : Nat → CreateOutcome
  | timeoutErr : Nat → CreateOutcome
  | provisioningFailed : Nat → String → CreateOutcome
  | fuelOut : Nat → CreateOutcome
deriving DecidableEq, Repr

/-- The polling loop of `create` (source lines 70-87).  `fetch 0` is the
state returned by `VectorDatabase.create`; `fetch (k+1)` is the state
observed by the k-th refresh.  Time is idealized: only `time.sleep(5)`
advances the clock, so the elapsed time at the top of the loop body
after `k` refreshes is `5 * k` seconds (statuses observed exactly
5 seconds apart, as the spec stipulates). -/
def pollLoop (fetch : Nat → VDBRemote) (timeout_seconds : Int) :
    Nat → Nat → CreateOutcome
  | k, 0 => CreateOutcome.fuelOut k
  | k, fuel + 1 =>
    if isTerminal (fetch k).execution_status then CreateOutcome.success k
    else if (5 * k : Int) > timeout_seconds then CreateOutcome.timeoutErr k
    else if (fetch (k + 1)).execution_status == "FAILED" then
      CreateOutcome.provisioningFailed (k + 1) (fetch (k + 1)).error_message
    else pollLoop fetch timeout_seconds (k + 1) fuel

/-- `options.get("wait_for_completion", True)` followed by Python
truthiness, as used by `create`. -/
def optWait (props : Props) : Bool :=
  truthy (getOr (pgetDict props "options") "wait_for_completion" (CVal.bool true))

/-- `options.get("timeout_seconds", 600)` as used by `create`.  A
non-integer value (which would make the Python comparison raise) is read
as the default. -/
def optTimeout (props : Props) : Int :=
  match getOr (pgetDict props "options") "timeout_seconds" (CVal.int 600) with
  | CVal.int n => n
  | _ => 600

/-- The dead-code-faithful per-key emission of the nested branch of
`_vdb_to_dict` (source lines 308-329): the `custom_chunking` emission
sits inside the `not vdb.custom_chunking` branch guarded by
`vdb.custom_chunking`, hence is unreachable; every other declared key is
filled from the corresponding remote field. -/
def nestedEntry (vdb : VDBRemote) (key : String) : CPDict :=
  if key = "custom_chunking" ∧ vdb.custom_chunking = false then
    if vdb.custom_chunking then [(key, CVal.bool true)] else []
  else if key = "embedding_model" then [(key, vdb.embedding_model)]
  else if key = "chunking_method" then [(key, vdb.chunking_method)]
  else if key = "chunk_size" then [(key, vdb.chunk_size)]
  else if key = "chunk_overlap_percentage" then [(key, vdb.chunk_overlap_percentage)]
  else if key = "separators" then [(key, vdb.separators)]
  else if key = "embedding_validation_id" ∧ vdb.has_embedding_validation_id then
    [(key, vdb.embedding_validation_id)]
  else []

/-- The nested `chunking_parameters` object emitted by `_vdb_to_dict`,
iterating over the keys of the reference shape in order. -/
def nestedChunking (vdb : VDBRemote) (cp : CPDict) : CPDict :=
  cp.foldl (fun acc kv => acc ++ nestedEntry vdb kv.1) []

/-- `DataRobotVectorDatabaseProvider._vdb_to_dict`: project the remote
state through the key set of the reference `props`. -/
def vdbToDict (vdb : VDBRemote) (props : Props) : Props :=
  let result : Props :=
    [("id", PVal.cval (CVal.str vdb.id)),
     ("name", PVal.cval (CVal.str vdb.name)),
     ("use_case_id", PVal.cval vdb.use_case_id),
     ("dataset_id", PVal.cval vdb.dataset_id)]
  let result :=
    if pcontains props "chunking_parameters" then
      result ++ [("chunking_parameters",
        PVal.dict (nestedChunking vdb (pgetDict props "chunking_parameters")))]
    else
      result ++
        [("embedding_model", PVal.cval vdb.embedding_model),
         ("chunking_method", PVal.cval vdb.chunking_method),
         ("chunk_size", PVal.cval vdb.chunk_size),
         ("chunk_overlap_percentage", PVal.cval vdb.chunk_overlap_percentage),
         ("separators", PVal.cval vdb.separators)] ++
        (if vdb.custom_chunking then [("custom_chunking", PVal.cval (CVal.bool true))]
         else []) ++
        (if vdb.has_embedding_validation_id ∧ vdb.embedding_validation_id ≠ CVal.none then
          [("embedding_validation_id", PVal.cval vdb.embedding_validation_id)]
         else [])
  let result := result ++
    (if pcontains props "chunks_count" then [("chunks_count", PVal.cval vdb.chunks_count)]
     else [])
  result ++
    (if pcontains props "execution_status" then
      [("execution_status", PVal.cval (CVal.str vdb.execution_status))]
     else [])

/-- `DataRobotVectorDatabaseProvider.read`: fetch the remote state and
project it through the shape of the previously persisted props. -/
def readModel (vdb : VDBRemote) (props : Props) : String × Props :=
  (vdb.id, vdbToDict vdb props)

/-- Result of `create` as seen by the caller. -/
inductive CreateResultM where
  | ok : String → Props → Nat → CreateResultM
  | timeoutErr : Nat → Int → CreateResultM
  | creationFailed : Nat → String → CreateResultM
  | fuelOut : Nat → CreateResultM
deriving DecidableEq, Repr

/-- Is the create outcome a successful `CreateResult`? -/
def CreateResultM.isOk : CreateResultM → Bool
  | CreateResultM.ok _ _ _ => true
  | _ => false

/-- `DataRobotVectorDatabaseProvider.create` for an already-issued
remote creation: `fetch` scripts the remote states the provider will
observe (`fetch 0` right after `VectorDatabase.create`).  The fuel
`timeout/5 + 2` strictly exceeds the number of loop iterations the
timeout check permits. -/
def createModel (props : Props) (fetch : Nat → VDBRemote) : CreateResultM :=
  if optWait props then
    match pollLoop fetch (optTimeout props) 0 ((optTimeout props).toNat / 5 + 2) with
    | CreateOutcome.success k =>
        CreateResultM.ok (fetch k).id (vdbToDict (fetch k) props) k
    | CreateOutcome.timeoutErr k => CreateResultM.timeoutErr k (optTimeout props)
    | CreateOutcome.provisioningFailed k msg =>
        CreateResultM.creationFailed k ("Vector database creation failed: " ++ msg)
    | CreateOutcome.fuelOut k => CreateResultM.fuelOut k
  else
    CreateResultM.ok (fetch 0).id (vdbToDict (fetch 0) props) 0

/-- The replacement set of `diff` before the collapse rule is applied
(the contents of the Python `replaces` set at source line 221). -/
def preReplaces (old_props new_props : Props) : Finset String :=
  if (diffChunking old_props new_props).1 then
    ((diffChunking old_props new_props).2.map
      (fun field => "chunking_parameters." ++ field)).toFinset
  else ∅

/-! ### Concrete example inputs for witnesses and counterexamples -/

/-- A fully populated remote state used as a base for examples. -/
def vdbBase : VDBRemote :=
  { id := "vdb-1", name := "vdb", use_case_id := CVal.str "uc-1",
    dataset_id := CVal.str "ds-1", embedding_model := CVal.str "e5",
    chunking_method := CVal.str "recursive", chunk_size := CVal.int 256,
    chunk_overlap_percentage := CVal.int 10, separators := CVal.list ["\n"],
    custom_chunking := false, has_embedding_validation_id := false,
    embedding_validation_id := CVal.none, chunks_count := CVal.int 42,
    execution_status := "COMPLETED", error_message := "" }

def vdbWithStatus (s : String) : VDBRemote :=
  { vdbBase with execution_status := s }

def c1old : Props :=
  [("name", PVal.cval (CVal.str "vdb-old")),
   ("chunking_parameters", PVal.dict
     [("embedding_model", CVal.str "e5"), ("chunk_size", CVal.int 256)])]

def c1new : Props :=
  [("name", PVal.cval (CVal.str "vdb-new")),
   ("chunking_parameters", PVal.dict
     [("embedding_model", CVal.str "e5"), ("chunk_size", CVal.int 256)])]

/-- Old props with `custom_chunking` explicitly `false`. -/
def c2old : Props :=
  [("name", PVal.cval (CVal.str "vdb")),
   ("chunking_parameters", PVal.dict
     [("embedding_model", CVal.str "e5"), ("custom_chunking", CVal.bool false)])]

/-- New props with `custom_chunking` absent, otherwise identical to `c2old`. -/
def c2new : Props :=
  [("name", PVal.cval (CVal.str "vdb")),
   ("chunking_parameters", PVal.dict [("embedding_model", CVal.str "e5")])]

/-- Old props with `custom_chunking` absent. -/
def c2wold : Props :=
  [("name", PVal.cval (CVal.str "vdb")),
   ("chunking_parameters", PVal.dict [("embedding_model", CVal.str "e5")])]

/-- New props with `custom_chunking` explicitly `false`, otherwise identical. -/
def c2wnew : Props :=
  [("name", PVal.cval (CVal.str "vdb")),
   ("chunking_parameters", PVal.dict
     [("embedding_model", CVal.str "e5"), ("custom_chunking", CVal.bool false)])]

/-- Separator lists equal as sets but with different multiplicities. -/
def c3old : Props :=
  [("name", PVal.cval (CVal.str "vdb")),
   ("chunking_parameters", PVal.dict [("separators", CVal.list ["\n"])])]

def c3new : Props :=
  [("name", PVal.cval (CVal.str "vdb")),
   ("chunking_parameters", PVal.dict [("separators", CVal.list ["\n", "\n"])])]

/-- Separator lists that are permutations of one another. -/
def c3wold : Props :=
  [("name", PVal.cval (CVal.str "vdb")),
   ("chunking_parameters", PVal.dict
     [("chunk_size", CVal.int 256), ("separators", CVal.list ["\n", " "])])]

def c3wnew : Props :=
  [("name", PVal.cval (CVal.str "vdb")),
   ("chunking_parameters", PVal.dict
     [("chunk_size", CVal.int 256), ("separators", CVal.list [" ", "\n"])])]

/-- Four chunking fields differ between `c4old` and `c4new`. -/
def c4old : Props :=
  [("name", PVal.cval (CVal.str "vdb")),
   ("chunking_parameters", PVal.dict
     [("embedding_model", CVal.str "e5"), ("chunking_method", CVal.str "recursive"),
      ("chunk_size", CVal.int 128), ("chunk_overlap_percentage", CVal.int 10)])]

def c4new : Props :=
  [("name", PVal.cval (CVal.str "vdb")),
   ("chunking_parameters", PVal.dict
     [("embedding_model", CVal.str "e3"), ("chunking_method", CVal.str "fixed"),
      ("chunk_size", CVal.int 512), ("chunk_overlap_percentage", CVal.int 25)])]

/-- A prior state in the flat legacy shape whose only flat chunking field is
`chunk_size` (no `embedding_model`). -/
def c5old : Props :=
  [("name", PVal.cval (CVal.str "vdb")),
   ("chunk_size", PVal.cval (CVal.int 100))]

/-- A nested-shape spec whose `chunk_size` differs from `c5old`. -/
def c5new : Props :=
  [("name", PVal.cval (CVal.str "vdb")),
   ("chunking_parameters", PVal.dict [("chunk_size", CVal.int 256)])]

/-- A prior flat-shape state containing `embedding_model`. -/
def c5wold : Props :=
  [("name", PVal.cval (CVal.str "vdb")),
   ("embedding_model", PVal.cval (CVal.str "e5")),
   ("chunk_size", PVal.cval (CVal.int 256))]

/-- A nested-shape spec with the same underlying values as `c5wold`. -/
def c5wnew : Props :=
  [("name", PVal.cval (CVal.str "vdb")),
   ("chunking_parameters", PVal.dict
     [("embedding_model", CVal.str "e5"), ("chunk_size", CVal.int 256)])]

def c10old : Props :=
  [("name", PVal.cval (CVal.str "vdb")),
   ("chunking_parameters", PVal.dict [("chunk_size", CVal.int 128)])]

def c10new : Props :=
  [("name", PVal.cval (CVal.str "vdb")),
   ("chunking_parameters", PVal.dict [("chunk_size", CVal.int 256)])]

/-- Status script QUEUED, RUNNING, RUNNING, COMPLETED (5 seconds apart). -/
def c6afetch : Nat → VDBRemote := fun k =>
  if k = 0 then vdbWithStatus "QUEUED"
  else if k ≤ 2 then vdbWithStatus "RUNNING"
  else vdbWithStatus "COMPLETED"

/-- A status script that never reaches a terminal state. -/
def c6bfetch : Nat → VDBRemote := fun _ => vdbWithStatus "RUNNING"

/-- Props declaring `timeout_seconds = 12` (`wait_for_completion` defaults to true). -/
def c6props : Props :=
  [("options", PVal.dict [("timeout_seconds", CVal.int 12)])]

/-- Status script QUEUED then FAILED with a remote error message. -/
def c7wfetch : Nat → VDBRemote := fun k =>
  if k = 0 then vdbWithStatus "QUEUED"
  else { vdbBase with execution_status := "FAILED", error_message := "boom" }

/-- A remote creation whose very first observed status is already FAILED. -/
def c7fetchFailed : Nat → VDBRemote := fun _ =>
  { vdbBase with execution_status := "FAILED", error_message := "kaboom" }

/-- A previously persisted blob in the flat legacy shape, without
`custom_chunking`. -/
def c8props : Props :=
  [("id", PVal.cval (CVal.str "vdb-1")), ("name", PVal.cval (CVal.str "vdb")),
   ("use_case_id", PVal.cval (CVal.str "uc-1")),
   ("dataset_id", PVal.cval (CVal.str "ds-1")),
   ("embedding_model", PVal.cval (CVal.str "e5")),
   ("chunking_method", PVal.cval (CVal.str "recursive")),
   ("chunk_size", PVal.cval (CVal.int 256)),
   ("chunk_overlap_percentage", PVal.cval (CVal.int 10)),
   ("separators", PVal.cval (CVal.list ["\n"]))]

/-- A remote state whose `custom_chunking` flag is now true. -/
def c8vdb : VDBRemote := { vdbBase with custom_chunking := true }

/-- A previously persisted blob in the nested shape. -/
def c8wprops : Props :=
  [("id", PVal.cval (CVal.str "vdb-1")), ("name", PVal.cval (CVal.str "vdb")),
   ("use_case_id", PVal.cval (CVal.str "uc-1")),
   ("dataset_id", PVal.cval (CVal.str "ds-1")),
   ("chunking_parameters", PVal.dict
     [("embedding_model", CVal.str "e5"), ("custom_chunking", CVal.bool true)])]

/-- A reference shape declaring `custom_chunking` inside
`chunking_parameters`. -/
def c9props : Props :=
  [("name", PVal.cval (CVal.str "vdb")),
   ("chunking_parameters", PVal.dict
     [("embedding_model", CVal.str "e5"), ("custom_chunking", CVal.bool true)])]

/-- A remote state with `custom_chunking = true`. -/
def c9vdb : VDBRemote := { vdbBase with custom_chunking := true }

/-! ### Basic dictionary lemmas -/

theorem cget_of_not_ccontains {d : CPDict} {k : String} (h : ccontains d k = false) :
    cget d k = CVal.none := by
  unfold cget
  have hf : d.find? (fun kv => kv.1 == k) = Option.none := by
    rw [List.find?_eq_none]
    intro x hx hb
    simp only [ccontains, List.any_eq_false] at h
    exact h x hx hb
  rw [hf]

theorem cget_cremove_self (d : CPDict) (k : String) :
    cget (cremove d k) k = CVal.none := by
  unfold cget
  have hf : (cremove d k).find? (fun kv => kv.1 == k) = Option.none := by
    rw [List.find?_eq_none]
    intro x hx
    have hpx := List.of_mem_filter hx
    simpa using hpx
  rw [hf]

theorem cget_cons_pos {kv : String × CVal} {t : CPDict} {k : String} (h : kv.1 = k) :
    cget (kv :: t) k = kv.2 := by
  unfold cget
  rw [List.find?_cons_of_pos _ (by simp [h])]

theorem cget_cons_neg {kv : String × CVal} {t : CPDict} {k : String} (h : kv.1 ≠ k) :
    cget (kv :: t) k = cget t k := by
  unfold cget
  rw [List.find?_cons_of_neg _ (by simp [h])]

theorem cget_cremove_ne (d : CPDict) {k k0 : String} (h : k ≠ k0) :
    cget (cremove d k0) k = cget d k := by
  induction d with
  | nil => rfl
  | cons kv t ih =>
    rw [show cremove (kv :: t) k0
        = if (!(kv.1 == k0)) = true then kv :: cremove t k0 else cremove t k0
      from List.filter_cons]
    by_cases hk : kv.1 = k0
    · rw [if_neg (by simp [hk])]
      rw [cget_cons_neg (by rw [hk]; exact fun e => h e.symm)]
      exact ih
    · rw [if_pos (by simp [hk])]
      by_cases hkk : kv.1 = k
      · rw [cget_cons_pos hkk, cget_cons_pos hkk]
      · rw [cget_cons_neg hkk, cget_cons_neg hkk]
        exact ih

theorem ccontains_of_mem {d : CPDict} {kv : String × CVal} (h : kv ∈ d) :
    ccontains d kv.1 = true := by
  simp only [ccontains, List.any_eq_true]
  exact ⟨kv, h, by simp⟩

/-! ### Characterization of the chunking-parameters comparison -/

theorem keyChanged_of_eq {o n : CPDict} {k : String} (h : cget o k = cget n k) :
    keyChanged o n k = false := by
  simp only [keyChanged]
  rw [h]
  split_ifs <;> simp

theorem chunkingFold_eq (o n : CPDict) (l : List String) :
    ∀ (b : Bool) (fs : List String),
      l.foldl (fun acc key => if keyChanged o n key then (true, acc.2 ++ [key]) else acc)
          (b, fs)
        = (b || !(l.filter (keyChanged o n)).isEmpty, fs ++ l.filter (keyChanged o n)) := by
  induction l with
  | nil => intro b fs; simp
  | cons k t ih =>
    intro b fs
    by_cases hk : keyChanged o n k = true
    · simp [List.foldl_cons, hk, List.filter_cons, ih]
    · simp only [Bool.not_eq_true] at hk
      simp [List.foldl_cons, hk, List.filter_cons, ih]

theorem chunkingParamsDiff_eq (o n : CPDict) :
    chunkingParamsDiff o n =
      (!(keysToCompare.filter (keyChanged o n)).isEmpty,
        keysToCompare.filter (keyChanged o n)) := by
  unfold chunkingParamsDiff
  rw [chunkingFold_eq]
  simp

theorem cpDiffWithCustomRule_of_cget_eq {a b : CPDict}
    (h : ∀ k ∈ keysToCompare, cget a k = cget b k) :
    cpDiffWithCustomRule a b = (false, []) := by
  have hfilter : keysToCompare.filter (keyChanged a b) = [] := by
    rw [List.filter_eq_nil_iff]
    intro k hk
    simp [keyChanged_of_eq (h k hk)]
  unfold cpDiffWithCustomRule
  rw [if_neg, chunkingParamsDiff_eq, hfilter]
  · simp
  · rintro ⟨h1, h2⟩
    have := cget_of_not_ccontains h1
    rw [h "custom_chunking" (by simp [keysToCompare])] at this
    rw [this] at h2
    exact CVal.noConfusion h2

theorem cpDiffWithCustomRule_snd_sublist (a b : CPDict) :
    (cpDiffWithCustomRule a b).2.Sublist keysToCompare := by
  unfold cpDiffWithCustomRule
  split <;> rw [chunkingParamsDiff_eq] <;> exact List.filter_sublist _

theorem cpDiffWithCustomRule_fst (a b : CPDict) :
    (cpDiffWithCustomRule a b).1 = !(cpDiffWithCustomRule a b).2.isEmpty := by
  unfold cpDiffWithCustomRule
  split <;> rw [chunkingParamsDiff_eq]

theorem diffChunking_snd_sublist (o n : Props) :
    (diffChunking o n).2.Sublist keysToCompare := by
  unfold diffChunking
  split
  · exact cpDiffWithCustomRule_snd_sublist _ _
  · split
    · exact cpDiffWithCustomRule_snd_sublist _ _
    · exact List.nil_sublist _

theorem diffChunking_fst (o n : Props) :
    (diffChunking o n).1 = !(diffChunking o n).2.isEmpty := by
  unfold diffChunking
  split
  · exact cpDiffWithCustomRule_fst _ _
  · split
    · exact cpDiffWithCustomRule_fst _ _
    · rfl

/-! ### Structural facts about `diff` -/

theorem diff_changes_eq (o n : Props) :
    (diff o n).changes
      = (decide (pget o "name" ≠ pget n "name") || (diffChunking o n).1) := rfl

theorem diff_replaces_eq (o n : Props) :
    (diff o n).replaces
      = if 3 < (preReplaces o n).card then {"chunking_parameters"}
        else preReplaces o n := rfl

theorem diff_delete_before_replace_eq (o n : Props) :
    (diff o n).delete_before_replace = false := rfl

theorem diffResult_eq_mk {d : DiffResult} {c : Bool} {r : Finset String} {b : Bool}
    (h1 : d.changes = c) (h2 : d.replaces = r) (h3 : d.delete_before_replace = b) :
    d = ⟨c, r, b⟩ := by
  cases d
  simp_all

theorem preReplaces_of_nil {o n : Props} (h : diffChunking o n = (false, [])) :
    preReplaces o n = ∅ := by
  simp [preReplaces, h]

theorem diff_of_chunking_nil {o n : Props} (h : diffChunking o n = (false, []))
    (hname : decide (pget o "name" ≠ pget n "name") = false) :
    diff o n = { changes := false, replaces := ∅, delete_before_replace := false } := by
  refine diffResult_eq_mk ?_ ?_ rfl
  · rw [diff_changes_eq, h, hname]
    rfl
  · rw [diff_replaces_eq, preReplaces_of_nil h]
    simp

theorem charsLe_total : ∀ (a b : List Char), charsLe a b = true ∨ charsLe b a = true
  | [], _ => Or.inl rfl
  | _ :: _, [] => Or.inr rfl
  | a :: as, b :: bs => by
    unfold charsLe
    rcases lt_trichotomy a b with h | h | h
    · exact Or.inl (by rw [if_pos h])
    · subst h
      rw [if_neg (lt_irrefl a), if_neg (lt_irrefl a), if_neg (lt_irrefl a),
        if_neg (lt_irrefl a)]
      exact charsLe_total as bs
    · exact Or.inr (by rw [if_pos h])

theorem charsLe_trans :
    ∀ (a b c : List Char), charsLe a b = true → charsLe b c = true → charsLe a c = true
  | [], _, _, _, _ => rfl
  | _ :: _, [], _, h1, _ => by simp [charsLe] at h1
  | _ :: _, _ :: _, [], _, h2 => by simp [charsLe] at h2
  | a :: as, b :: bs, c :: cs, h1, h2 => by
    unfold charsLe at h1 h2 ⊢
    rcases lt_trichotomy a b with hab | hab | hab
    · rcases lt_trichotomy b c with hbc | hbc | hbc
      · rw [if_pos (lt_trans hab hbc)]
      · subst hbc
        rw [if_pos hab]
      · rw [if_neg (asymm hbc), if_pos hbc] at h2
        exact absurd h2 (by simp)
    · subst hab
      rw [if_neg (lt_irrefl a), if_neg (lt_irrefl a)] at h1
      rcases lt_trichotomy a c with hbc | hbc | hbc
      · rw [if_pos hbc]
      · subst hbc
        rw [if_neg (lt_irrefl a), if_neg (lt_irrefl a)] at h2 ⊢
        exact charsLe_trans as bs cs h1 h2
      · rw [if_neg (asymm hbc), if_pos hbc] at h2
        exact absurd h2 (by simp)
    · rw [if_neg (asymm hab), if_pos hab] at h1
      exact absurd h1 (by simp)

theorem charsLe_antisymm :
    ∀ (a b : List Char), charsLe a b = true → charsLe b a = true → a = b
  | [], [], _, _ => rfl
  | [], _ :: _, _, h2 => by simp [charsLe] at h2
  | _ :: _, [], h1, _ => by simp [charsLe] at h1
  | a :: as, b :: bs, h1, h2 => by
    unfold charsLe at h1 h2
    rcases lt_trichotomy a b with hab | hab | hab
    · rw [if_neg (asymm hab), if_pos hab] at h2
      exact absurd h2 (by simp)
    · subst hab
      rw [if_neg (lt_irrefl a), if_neg (lt_irrefl a)] at h1 h2
      rw [charsLe_antisymm as bs h1 h2]
    · rw [if_neg (asymm hab), if_pos hab] at h1
      exact absurd h1 (by simp)

instance : IsTotal String (fun a b => strLe a b = true) :=
  ⟨fun a b => charsLe_total a.data b.data⟩

instance : IsTrans String (fun a b => strLe a b = true) :=
  ⟨fun a b c => charsLe_trans a.data b.data c.data⟩

instance : IsAntisymm String (fun a b => strLe a b = true) :=
  ⟨fun a b h1 h2 => String.toList_inj.mp (charsLe_antisymm a.data b.data h1 h2)⟩

/-- Sorting via `List.insertionSort` is invariant under permutation: the
sorted list is determined by the multiset of elements. -/
theorem insertionSort_eq_of_perm {l1 l2 : List String} (h : l1.Perm l2) :
    List.insertionSort (fun a b => strLe a b = true) l1
      = List.insertionSort (fun a b => strLe a b = true) l2 := by
  have hp : (List.insertionSort (fun a b => strLe a b = true) l1).Perm
      (List.insertionSort (fun a b => strLe a b = true) l2) :=
    (List.perm_insertionSort _ l1).trans
      (h.trans (List.perm_insertionSort _ l2).symm)
  exact List.eq_of_perm_of_sorted hp
    (List.sorted_insertionSort _ l1) (List.sorted_insertionSort _ l2)

theorem keyChanged_separators_of_perm {o n : CPDict} {l1 l2 : List String}
    (hso : cget o "separators" = CVal.list l1)
    (hsn : cget n "separators" = CVal.list l2)
    (hperm : l1.Perm l2) : keyChanged o n "separators" = false := by
  have hsort : sortedOf (CVal.list l1) = sortedOf (CVal.list l2) := by
    show List.insertionSort (fun a b => strLe a b = true) l1
      = List.insertionSort (fun a b => strLe a b = true) l2
    exact insertionSort_eq_of_perm hperm
  simp only [keyChanged]
  rw [hso, hsn, hsort]
  simp

/-! ### Claim theorems about the Diff Engine -/

/-- C1: for every pair of specs that agree (presence and value) on
`chunking_parameters` and on every flat chunking field but differ on
`name`, `diff` returns `changed = true` with an empty replacement set:
a name-only difference never routes to replacement. -/
theorem diff_name_only (o n : Props)
    (hname : pget o "name" ≠ pget n "name")
    (hsame : ∀ k ∈ ("chunking_parameters" :: keysToCompare),
      pcontains o k = pcontains n k ∧ pget o k = pget n k) :
    diff o n = { changes := true, replaces := ∅, delete_before_replace := false } := by
  have hcp := hsame "chunking_parameters" (List.mem_cons_self _ _)
  have hchunk : diffChunking o n = (false, []) := by
    unfold diffChunking
    split_ifs with h1 h2
    · have hd : pgetDict o "chunking_parameters" = pgetDict n "chunking_parameters" := by
        unfold pgetDict
        rw [hcp.2]
      rw [hd]
      exact cpDiffWithCustomRule_of_cget_eq (fun k _ => rfl)
    · exact absurd ⟨h2.1, by rw [hcp.1]; exact h2.1⟩ h1
    · rfl
  refine diffResult_eq_mk ?_ ?_ rfl
  · rw [diff_changes_eq, hchunk]
    simp [hname]
  · rw [diff_replaces_eq, preReplaces_of_nil hchunk]
    simp

/-- C1 witness: concrete specs identical except for the name. -/
theorem diff_name_only_witness :
    (pget c1old "name" ≠ pget c1new "name") ∧
    diff c1old c1new = { changes := true, replaces := ∅, delete_before_replace := false } :=
  ⟨by decide, diff_name_only c1old c1new (by decide) (by decide)⟩

/-- C2 counterexample: `custom_chunking` explicitly `false` in the OLD
spec and absent from the NEW one (all other keys identical) yields
`changed = true` with the field flagged for replacement, refuting the
claimed both-directions equivalence. -/
theorem diff_custom_false_vs_absent_cex :
    diff c2old c2new =
      { changes := true,
        replaces := {"chunking_parameters.custom_chunking"},
        delete_before_replace := false } := by decide

/-- C2 amended: the absence/false equivalence holds in the
old-absent/new-false direction: if the old nested parameters lack
`custom_chunking`, the new ones carry it explicitly `false`, and all
other compared keys have equal values, `diff` reports no change. -/
theorem diff_custom_absent_vs_false (o n : Props)
    (ho : pcontains o "chunking_parameters" = true)
    (hn : pcontains n "chunking_parameters" = true)
    (hname : pget o "name" = pget n "name")
    (habs : ccontains (pgetDict o "chunking_parameters") "custom_chunking" = false)
    (hfalse : cget (pgetDict n "chunking_parameters") "custom_chunking" = CVal.bool false)
    (hsame : ∀ k ∈ keysToCompare, k ≠ "custom_chunking" →
      cget (pgetDict o "chunking_parameters") k
        = cget (pgetDict n "chunking_parameters") k) :
    diff o n = { changes := false, replaces := ∅, delete_before_replace := false } := by
  have hchunk : diffChunking o n = (false, []) := by
    unfold diffChunking
    rw [if_pos ⟨hn, ho⟩]
    unfold cpDiffWithCustomRule
    rw [if_pos ⟨habs, hfalse⟩, chunkingParamsDiff_eq]
    have hfilter : keysToCompare.filter
        (keyChanged (pgetDict o "chunking_parameters")
          (cremove (pgetDict n "chunking_parameters") "custom_chunking")) = [] := by
      rw [List.filter_eq_nil_iff]
      intro k hk
      by_cases hc : k = "custom_chunking"
      · subst hc
        have h1 : cget (pgetDict o "chunking_parameters") "custom_chunking" = CVal.none :=
          cget_of_not_ccontains habs
        have h2 := cget_cremove_self (pgetDict n "chunking_parameters") "custom_chunking"
        simp [keyChanged_of_eq (h1.trans h2.symm)]
      · have heq := hsame k hk hc
        rw [← cget_cremove_ne (pgetDict n "chunking_parameters") hc] at heq
        simp [keyChanged_of_eq heq]
    rw [hfilter]
    rfl
  exact diff_of_chunking_nil hchunk (by simp [hname])

/-- C2 amended witness: old without `custom_chunking`, new with an
explicit `false`. -/
theorem diff_custom_absent_vs_false_witness :
    (ccontains (pgetDict c2wold "chunking_parameters") "custom_chunking" = false) ∧
    (cget (pgetDict c2wnew "chunking_parameters") "custom_chunking" = CVal.bool false) ∧
    diff c2wold c2wnew = { changes := false, replaces := ∅, delete_before_replace := false } :=
  ⟨by decide, by decide,
    diff_custom_absent_vs_false c2wold c2wnew (by decide) (by decide) (by decide)
      (by decide) (by decide) (by decide)⟩

/-- C3 counterexample: separator lists equal as sets but with different
duplicate multiplicities are reported as changed, refuting the
set-comparison claim (the code compares sorted lists, i.e. multisets). -/
theorem diff_separators_multiset_cex :
    diff c3old c3new =
      { changes := true,
        replaces := {"chunking_parameters.separators"},
        delete_before_replace := false } := by decide

/-- C3 amended: the `separators` comparison is order-insensitive with
multiplicity (sorted-list comparison): if the two separator lists are
permutations of one another and all other compared keys agree, `diff`
reports no change. -/
theorem diff_separators_perm (o n : Props) (l1 l2 : List String)
    (ho : pcontains o "chunking_parameters" = true)
    (hn : pcontains n "chunking_parameters" = true)
    (hname : pget o "name" = pget n "name")
    (hso : cget (pgetDict o "chunking_parameters") "separators" = CVal.list l1)
    (hsn : cget (pgetDict n "chunking_parameters") "separators" = CVal.list l2)
    (hperm : l1.Perm l2)
    (hsame : ∀ k ∈ keysToCompare, k ≠ "separators" →
      cget (pgetDict o "chunking_parameters") k
        = cget (pgetDict n "chunking_parameters") k) :
    diff o n = { changes := false, replaces := ∅, delete_before_replace := false } := by
  have hcust := hsame "custom_chunking" (by simp [keysToCompare]) (by simp)
  have hchunk : diffChunking o n = (false, []) := by
    unfold diffChunking
    rw [if_pos ⟨hn, ho⟩]
    unfold cpDiffWithCustomRule
    rw [if_neg, chunkingParamsDiff_eq]
    · have hfilter : keysToCompare.filter
          (keyChanged (pgetDict o "chunking_parameters")
            (pgetDict n "chunking_parameters")) = [] := by
        rw [List.filter_eq_nil_iff]
        intro k hk
        by_cases hs : k = "separators"
        · subst hs
          simp [keyChanged_separators_of_perm hso hsn hperm]
        · simp [keyChanged_of_eq (hsame k hk hs)]
      rw [hfilter]
      rfl
    · rintro ⟨h1, h2⟩
      have := cget_of_not_ccontains h1
      rw [hcust] at this
      rw [this] at h2
      exact CVal.noConfusion h2
  exact diff_of_chunking_nil hchunk (by simp [hname])

/-- C3 amended witness: permuted separator lists yield no change. -/
theorem diff_separators_perm_witness :
    (cget (pgetDict c3wold "chunking_parameters") "separators"
      = CVal.list ["\n", " "]) ∧
    (cget (pgetDict c3wnew "chunking_parameters") "separators"
      = CVal.list [" ", "\n"]) ∧
    diff c3wold c3wnew = { changes := false, replaces := ∅, delete_before_replace := false } :=
  ⟨by decide, by decide,
    diff_separators_perm c3wold c3wnew ["\n", " "] [" ", "\n"] (by decide) (by decide)
      (by decide) (by decide) (by decide) (by decide) (by decide)⟩

/-- C4: the collapse rule of `diff`.  If more than three individual
chunking fields are flagged, the replacement set is exactly the single
marker; with three or fewer flagged fields the individual prefixed
entries are returned unchanged. -/
theorem diff_collapse_rule (o n : Props) :
    (3 < (diffChunking o n).2.length →
      (diff o n).replaces = {"chunking_parameters"}) ∧
    ((diffChunking o n).2.length ≤ 3 →
      (diff o n).replaces =
        ((diffChunking o n).2.map
          (fun field => "chunking_parameters." ++ field)).toFinset) := by
  have hnodup : ((diffChunking o n).2.map
      (fun field => "chunking_parameters." ++ field)).Nodup := by
    have hsub : ((diffChunking o n).2.map
          (fun field => "chunking_parameters." ++ field)).Sublist
        (keysToCompare.map (fun field => "chunking_parameters." ++ field)) :=
      List.Sublist.map _ (diffChunking_snd_sublist o n)
    exact List.Nodup.sublist hsub (by decide)
  have hcard : ((diffChunking o n).2.map
        (fun field => "chunking_parameters." ++ field)).toFinset.card
      = (diffChunking o n).2.length := by
    rw [List.toFinset_card_of_nodup hnodup, List.length_map]
  constructor
  · intro h
    have hne : (diffChunking o n).2 ≠ [] := by
      intro he
      rw [he] at h
      exact absurd h (by simp)
    have hc : (diffChunking o n).1 = true := by
      rw [diffChunking_fst]
      simpa [List.isEmpty_iff] using hne
    have hpre : preReplaces o n = ((diffChunking o n).2.map
        (fun field => "chunking_parameters." ++ field)).toFinset := by
      simp [preReplaces, hc]
    rw [diff_replaces_eq, hpre, if_pos]
    rw [hcard]
    exact h
  · intro h
    by_cases hc : (diffChunking o n).1 = true
    · have hpre : preReplaces o n = ((diffChunking o n).2.map
          (fun field => "chunking_parameters." ++ field)).toFinset := by
        simp [preReplaces, hc]
      rw [diff_replaces_eq, hpre, if_neg]
      rw [hcard]
      omega
    · have hb : (diffChunking o n).1 = false := by
        simpa using hc
      have hnil : (diffChunking o n).2 = [] := by
        have hfst := diffChunking_fst o n
        rw [hb] at hfst
        simpa [List.isEmpty_iff] using hfst.symm
      have hpre : preReplaces o n = ∅ := by
        simp [preReplaces, hb]
      rw [diff_replaces_eq, hpre, hnil]
      simp

/-- C4 witness: four chunking fields differ, so the replacement set
collapses to the single marker. -/
theorem diff_collapse_rule_witness :
    (3 < (diffChunking c4old c4new).2.length) ∧
    (diff c4old c4new).replaces = {"chunking_parameters"} :=
  ⟨by decide, (diff_collapse_rule c4old c4new).1 (by decide)⟩

/-- C5 counterexample: a prior state in the flat legacy shape whose only
flat chunking field is `chunk_size` (no `embedding_model`) is NOT
detected as legacy: its differing `chunk_size` (100 vs 256) is never
compared and `diff` reports no change, refuting the claimed detection by
presence of any flattened chunking field. -/
theorem diff_flat_detection_cex :
    diff c5old c5new =
      { changes := false, replaces := ∅, delete_before_replace := false } := by decide

/-- C5 amended: schema migration fires exactly when the prior state
lacks `chunking_parameters` and contains `embedding_model` specifically;
in that case, if the normalized flat fields equal the new nested group
(and the name is unchanged), `diff` reports no change. -/
theorem diff_flat_migration (o n : Props)
    (hocp : pcontains o "chunking_parameters" = false)
    (hoem : pcontains o "embedding_model" = true)
    (hncp : pcontains n "chunking_parameters" = true)
    (hname : pget o "name" = pget n "name")
    (hsame : ∀ k ∈ keysToCompare,
      cget (extractFlat o) k = cget (pgetDict n "chunking_parameters") k) :
    diff o n = { changes := false, replaces := ∅, delete_before_replace := false } := by
  have hchunk : diffChunking o n = (false, []) := by
    unfold diffChunking
    rw [if_neg, if_pos ⟨hncp, hoem⟩]
    · exact cpDiffWithCustomRule_of_cget_eq hsame
    · rintro ⟨_, h2⟩
      rw [hocp] at h2
      exact Bool.noConfusion h2
  exact diff_of_chunking_nil hchunk (by simp [hname])

/-- C5 amended witness: a flat prior state with `embedding_model` and a
nested spec with equal underlying values diff to no change. -/
theorem diff_flat_migration_witness :
    (pcontains c5wold "chunking_parameters" = false) ∧
    (pcontains c5wold "embedding_model" = true) ∧
    diff c5wold c5wnew = { changes := false, replaces := ∅, delete_before_replace := false } :=
  ⟨by decide, by decide,
    diff_flat_migration c5wold c5wnew (by decide) (by decide) (by decide) (by decide)
      (by decide)⟩

/-- C10: the diff-result invariant: a non-empty replacement set is only
ever returned together with `changed = true`, so the caller's
replacement policy is well-defined on every diff output. -/
theorem diff_replaces_nonempty_changes (o n : Props)
    (h : (diff o n).replaces ≠ ∅) :
    (diff o n).changes = true := by
  by_cases hc : (diffChunking o n).1 = true
  · rw [diff_changes_eq, hc]
    simp
  · exfalso
    apply h
    have hb : (diffChunking o n).1 = false := by simpa using hc
    have hpre : preReplaces o n = ∅ := by simp [preReplaces, hb]
    rw [diff_replaces_eq, hpre]
    simp

/-- C10 witness: a diff output with a non-empty replacement set has
`changes = true`. -/
theorem diff_replaces_nonempty_changes_witness :
    ((diff c10old c10new).replaces ≠ ∅) ∧ (diff c10old c10new).changes = true :=
  ⟨by decide, diff_replaces_nonempty_changes c10old c10new (by decide)⟩

/-! ### Lemmas about the creation polling loop -/

theorem not_failed_of_not_terminal {s : String} (h : isTerminal s = false) :
    (s == "FAILED") = false := by
  simp only [isTerminal, Bool.or_eq_false_iff] at h
  exact h.2

theorem pollLoop_success (fetch : Nat → VDBRemote) (timeout : Int) (m : Nat) :
    ∀ (fuel k : Nat), k ≤ m → m - k < fuel →
      (∀ j, k ≤ j → j < m → isTerminal (fetch j).execution_status = false) →
      (∀ j, k ≤ j → j < m → (5 * j : Int) ≤ timeout) →
      (∀ j, k < j → j ≤ m → (fetch j).execution_status ≠ "FAILED") →
      isTerminal (fetch m).execution_status = true →
      pollLoop fetch timeout k fuel = CreateOutcome.success m
  | 0, _, _, hfuel, _, _, _, _ => absurd hfuel (by omega)
  | fuel + 1, k, hk, _, hnt, htime, hnf, hterm => by
    by_cases hkm : k = m
    · subst hkm
      simp only [pollLoop]
      rw [if_pos hterm]
    · have hklt : k < m := lt_of_le_of_ne hk hkm
      simp only [pollLoop]
      rw [if_neg (by simp [hnt k le_rfl hklt]),
        if_neg (by have := htime k le_rfl hklt; omega),
        if_neg (by simp only [beq_iff_eq]; exact hnf (k + 1) (by omega) (by omega))]
      exact pollLoop_success fetch timeout m fuel (k + 1) hklt (by omega)
        (fun j h1 h2 => hnt j (by omega) h2)
        (fun j h1 h2 => htime j (by omega) h2)
        (fun j h1 h2 => hnf j (by omega) h2) hterm

theorem pollLoop_timeoutRun (fetch : Nat → VDBRemote) (timeout : Int) (m : Nat) :
    ∀ (fuel k : Nat), k ≤ m → m - k < fuel →
      (∀ j, k ≤ j → isTerminal (fetch j).execution_status = false) →
      (∀ j, k ≤ j → j < m → (5 * j : Int) ≤ timeout) →
      (5 * m : Int) > timeout →
      pollLoop fetch timeout k fuel = CreateOutcome.timeoutErr m
  | 0, _, _, hfuel, _, _, _ => absurd hfuel (by omega)
  | fuel + 1, k, hk, _, hnt, htime, hm => by
    simp only [pollLoop]
    rw [if_neg (by simp [hnt k le_rfl])]
    by_cases hkm : k = m
    · subst hkm
      rw [if_pos hm]
    · have hklt : k < m := lt_of_le_of_ne hk hkm
      rw [if_neg (by have := htime k le_rfl hklt; omega),
        if_neg (by rw [not_failed_of_not_terminal (hnt (k + 1) (by omega))]; simp)]
      exact pollLoop_timeoutRun fetch timeout m fuel (k + 1) hklt (by omega)
        (fun j h1 => hnt j (by omega))
        (fun j h1 h2 => htime j (by omega) h2) hm

theorem pollLoop_failedRun (fetch : Nat → VDBRemote) (timeout : Int) (m : Nat) :
    ∀ (fuel k : Nat), k < m → m - k ≤ fuel →
      (∀ j, k ≤ j → j < m → isTerminal (fetch j).execution_status = false) →
      (∀ j, k ≤ j → j < m → (5 * j : Int) ≤ timeout) →
      (fetch m).execution_status = "FAILED" →
      pollLoop fetch timeout k fuel =
        CreateOutcome.provisioningFailed m (fetch m).error_message
  | 0, _, hk, hfuel, _, _, _ => absurd hfuel (by omega)
  | fuel + 1, k, hk, _, hnt, htime, hf => by
    simp only [pollLoop]
    rw [if_neg (by simp [hnt k le_rfl hk]),
      if_neg (by have := htime k le_rfl hk; omega)]
    by_cases hkm : k + 1 = m
    · rw [hkm, if_pos (by simp [hf])]
    · have hlt : k + 1 < m := by omega
      rw [if_neg (by rw [not_failed_of_not_terminal (hnt (k + 1) (by omega) hlt)]; simp)]
      exact pollLoop_failedRun fetch timeout m fuel (k + 1) hlt (by omega)
        (fun j h1 h2 => hnt j (by omega) h2)
        (fun j h1 h2 => htime j (by omega) h2) hf

/-! ### Claim theorems about the Lifecycle Manager -/

/-- C6 counterexample: with `timeout_seconds = 12` and a status sequence
that never reaches a terminal state (observations 5 seconds apart), the
loop performs THREE refresh polls (at elapsed 5, 10 and 15 seconds)
before the timeout check fires, refuting the claimed bound of at most
two polls: the elapsed-time check precedes the sleep, so the poll at 15
seconds still happens. -/
theorem create_timeout_three_polls_cex :
    createModel c6props c6bfetch = CreateResultM.timeoutErr 3 12 := by decide

/-- C6 amended: with `wait_for_completion = true` the loop re-fetches
the remote status every 5 seconds until a terminal status or until the
elapsed time exceeds `timeout_seconds`.  For the sequence QUEUED,
RUNNING, RUNNING, COMPLETED it returns successfully after the fourth
status observation (the third refresh poll); for a sequence that never
reaches a terminal state with `timeout_seconds = 12` it performs exactly
three refresh polls and then raises a timeout error. -/
theorem create_polling_bounds :
    (∀ (props : Props) (fetch : Nat → VDBRemote),
      optWait props = true → optTimeout props = 600 →
      (fetch 0).execution_status = "QUEUED" →
      (fetch 1).execution_status = "RUNNING" →
      (fetch 2).execution_status = "RUNNING" →
      (fetch 3).execution_status = "COMPLETED" →
      createModel props fetch =
        CreateResultM.ok (fetch 3).id (vdbToDict (fetch 3) props) 3) ∧
    (∀ (props : Props) (fetch : Nat → VDBRemote),
      optWait props = true → optTimeout props = 12 →
      (∀ k, isTerminal (fetch k).execution_status = false) →
      createModel props fetch = CreateResultM.timeoutErr 3 12) := by
  constructor
  · intro props fetch hwait htime hq hr1 hr2 hcmp
    have hpoll : pollLoop fetch (optTimeout props) 0 ((optTimeout props).toNat / 5 + 2)
        = CreateOutcome.success 3 := by
      rw [htime]
      refine pollLoop_success fetch 600 3 _ 0 (by omega) (by decide) ?_ ?_ ?_ ?_
      · intro j h1 h2
        interval_cases j <;> simp [isTerminal, hq, hr1, hr2]
      · intro j h1 h2
        omega
      · intro j h1 h2
        interval_cases j <;> simp [hr1, hr2, hcmp]
      · simp [isTerminal, hcmp]
    unfold createModel
    rw [hwait, if_pos rfl, hpoll]
  · intro props fetch hwait htime hnever
    have hpoll : pollLoop fetch (optTimeout props) 0 ((optTimeout props).toNat / 5 + 2)
        = CreateOutcome.timeoutErr 3 := by
      rw [htime]
      refine pollLoop_timeoutRun fetch 12 3 _ 0 (by omega) (by decide) ?_ ?_ ?_
      · exact fun j _ => hnever j
      · intro j h1 h2
        omega
      · decide
    unfold createModel
    rw [hwait, if_pos rfl, hpoll, htime]

/-- C6 amended witness: the two polling bounds at concrete inputs. -/
theorem create_polling_bounds_witness :
    createModel [] c6afetch =
      CreateResultM.ok (c6afetch 3).id (vdbToDict (c6afetch 3) []) 3 ∧
    createModel c6props c6bfetch = CreateResultM.timeoutErr 3 12 :=
  ⟨create_polling_bounds.1 [] c6afetch (by decide) (by decide) (by decide) (by decide)
      (by decide) (by decide),
   create_polling_bounds.2 c6props c6bfetch (by decide) (by decide) (fun k => rfl)⟩

/-- C7 counterexample: when the very first observed status (before any
refresh poll) is already FAILED, the loop condition exits immediately
and `create` returns successfully with a FAILED resource instead of
raising a provisioning error. -/
theorem create_initial_failed_cex :
    (createModel [] c7fetchFailed).isOk = true ∧
    (c7fetchFailed 0).execution_status = "FAILED" := by decide

/-- C7 amended: whenever a FAILED status is observed at a refresh poll
(not the initial observation), `create` raises a provisioning error
whose message carries the remote-reported error message; an initial
FAILED status instead makes `create` return without raising. -/
theorem create_failed_raises (props : Props) (fetch : Nat → VDBRemote) (m : Nat)
    (hwait : optWait props = true)
    (hm : 1 ≤ m)
    (hnt : ∀ j, j < m → isTerminal (fetch j).execution_status = false)
    (htime : ∀ j, j < m → (5 * j : Int) ≤ optTimeout props)
    (hf : (fetch m).execution_status = "FAILED") :
    createModel props fetch =
      CreateResultM.creationFailed m
        ("Vector database creation failed: " ++ (fetch m).error_message) := by
  have hfuel : m - 0 ≤ (optTimeout props).toNat / 5 + 2 := by
    have h1 : (5 * ((m - 1 : Nat) : Int)) ≤ optTimeout props := htime (m - 1) (by omega)
    have h2 : ((5 * (m - 1) : Nat) : Int) ≤ optTimeout props := by exact_mod_cast h1
    have h3 : (5 * (m - 1) : Nat) ≤ (optTimeout props).toNat := by
      have h5 := Int.toNat_le_toNat h2
      rwa [Int.toNat_natCast] at h5
    have h4 : (m - 1) ≤ (optTimeout props).toNat / 5 :=
      (Nat.le_div_iff_mul_le (by norm_num)).mpr (by omega)
    omega
  have hpoll : pollLoop fetch (optTimeout props) 0 ((optTimeout props).toNat / 5 + 2)
      = CreateOutcome.provisioningFailed m (fetch m).error_message :=
    pollLoop_failedRun fetch (optTimeout props) m _ 0 (by omega) hfuel
      (fun j _ h2 => hnt j h2) (fun j _ h2 => htime j h2) hf
  unfold createModel
  rw [hwait, if_pos rfl, hpoll]

/-- C7 amended witness: QUEUED, then FAILED at the first refresh poll
raises the provisioning error carrying the remote message. -/
theorem create_failed_raises_witness :
    createModel [] c7wfetch =
      CreateResultM.creationFailed 1
        ("Vector database creation failed: " ++ (c7wfetch 1).error_message) :=
  create_failed_raises [] c7wfetch 1 (by decide) (by decide)
    (fun j hj => by
      have hj0 : j = 0 := by omega
      subst hj0
      decide)
    (fun j hj => by
      have hj0 : j = 0 := by omega
      subst hj0
      decide)
    (by decide)

/-! ### Lemmas about the State Codec -/

theorem pcontains_append (a b : Props) (k : String) :
    pcontains (a ++ b) k = (pcontains a k || pcontains b k) := by
  simp [pcontains, List.any_append]

theorem pget_append (a b : Props) (k : String) :
    pget (a ++ b) k = if pcontains a k then pget a k else pget b k := by
  induction a with
  | nil => simp [pcontains, pget]
  | cons kv t ih =>
    by_cases h : kv.1 = k
    · have hc : pcontains (kv :: t) k = true := by simp [pcontains, h]
      rw [hc, if_pos rfl]
      show pget (kv :: (t ++ b)) k = pget (kv :: t) k
      unfold pget
      rw [List.find?_cons_of_pos _ (by simp [h]),
        List.find?_cons_of_pos _ (by simp [h])]
    · have e1 : pget ((kv :: t) ++ b) k = pget (t ++ b) k := by
        show pget (kv :: (t ++ b)) k = pget (t ++ b) k
        unfold pget
        rw [List.find?_cons_of_neg _ (by simp [h])]
      have e2 : pget (kv :: t) k = pget t k := by
        unfold pget
        rw [List.find?_cons_of_neg _ (by simp [h])]
      have hc : pcontains (kv :: t) k = pcontains t k := by simp [pcontains, h]
      rw [e1, hc, e2, ih]

theorem ccontains_append (a b : CPDict) (k : String) :
    ccontains (a ++ b) k = (ccontains a k || ccontains b k) := by
  simp [ccontains, List.any_append]

theorem nestedEntry_key {vdb : VDBRemote} {key k : String}
    (h : ccontains (nestedEntry vdb key) k = true) : k = key := by
  unfold nestedEntry at h
  split_ifs at h <;> simp [ccontains] at h <;> exact h.symm

theorem nestedChunking_aux (vdb : VDBRemote) (k : String) :
    ∀ (l : CPDict) (acc : CPDict),
      ccontains (l.foldl (fun acc kv => acc ++ nestedEntry vdb kv.1) acc) k = true →
      ccontains acc k = true ∨ ∃ kv ∈ l, kv.1 = k
  | [], _, h => Or.inl h
  | kv :: t, acc, h => by
    rcases nestedChunking_aux vdb k t (acc ++ nestedEntry vdb kv.1) h with
      hacc | ⟨kv2, hmem, hk2⟩
    · rw [ccontains_append] at hacc
      simp only [Bool.or_eq_true] at hacc
      rcases hacc with h1 | h2
      · exact Or.inl h1
      · exact Or.inr ⟨kv, List.mem_cons_self _ _, (nestedEntry_key h2).symm⟩
    · exact Or.inr ⟨kv2, List.mem_cons_of_mem _ hmem, hk2⟩

theorem nestedChunking_keys {vdb : VDBRemote} {cp : CPDict} {k : String}
    (h : ccontains (nestedChunking vdb cp) k = true) : ccontains cp k = true := by
  rcases nestedChunking_aux vdb k cp [] h with hacc | ⟨kv, hmem, hk⟩
  · exact absurd hacc (by simp [ccontains])
  · rw [← hk]
    exact ccontains_of_mem hmem

theorem vdbToDict_nested (vdb : VDBRemote) {props : Props}
    (hcp : pcontains props "chunking_parameters" = true) :
    vdbToDict vdb props =
      [("id", PVal.cval (CVal.str vdb.id)),
       ("name", PVal.cval (CVal.str vdb.name)),
       ("use_case_id", PVal.cval vdb.use_case_id),
       ("dataset_id", PVal.cval vdb.dataset_id)] ++
      [("chunking_parameters",
        PVal.dict (nestedChunking vdb (pgetDict props "chunking_parameters")))] ++
      (if pcontains props "chunks_count" then
        [("chunks_count", PVal.cval vdb.chunks_count)] else []) ++
      (if pcontains props "execution_status" then
        [("execution_status", PVal.cval (CVal.str vdb.execution_status))] else []) := by
  simp [vdbToDict, hcp]

/-! ### Claim theorems about the State Codec -/

/-- C8 counterexample: a previously persisted flat-shape blob without a
`custom_chunking` key, read back while the remote resource now has
`custom_chunking = true`, produces an output containing the
`custom_chunking` key — a key absent from the reference blob's shape. -/
theorem read_flat_new_key_cex :
    pcontains c8props "custom_chunking" = false ∧
    pcontains (readModel c8vdb c8props).2 "custom_chunking" = true := by decide

/-- C8 amended: for a NESTED-shape reference blob containing the four
always-tracked core keys, `read`'s output contains no key absent from
the blob's shape, both at top level and inside the nested
`chunking_parameters` group.  (For flat-shape blobs the five flat fields
are always emitted and `custom_chunking` / `embedding_validation_id` can
appear even when absent from the blob, as the counterexample shows.) -/
theorem read_nested_shape_keys (vdb : VDBRemote) (props : Props)
    (hcp : pcontains props "chunking_parameters" = true)
    (hid : pcontains props "id" = true)
    (hname : pcontains props "name" = true)
    (huc : pcontains props "use_case_id" = true)
    (hds : pcontains props "dataset_id" = true) :
    (∀ k, pcontains (readModel vdb props).2 k = true → pcontains props k = true) ∧
    (∀ k, ccontains (pgetDict (readModel vdb props).2 "chunking_parameters") k = true →
      ccontains (pgetDict props "chunking_parameters") k = true) := by
  have hshape := vdbToDict_nested vdb hcp
  constructor
  · intro k hk
    have hk2 : pcontains (vdbToDict vdb props) k = true := hk
    rw [hshape, pcontains_append, pcontains_append, pcontains_append] at hk2
    simp only [Bool.or_eq_true] at hk2
    rcases hk2 with ((hcore | hcpk) | hck) | hek
    · simp only [pcontains, List.any_cons, List.any_nil, Bool.or_eq_true,
        beq_iff_eq, Bool.or_eq_false_iff] at hcore
      rcases hcore with h | h | h | h | h
      · subst h
        exact hid
      · subst h
        exact hname
      · subst h
        exact huc
      · subst h
        exact hds
      · exact absurd h (by simp)
    · simp only [pcontains, List.any_cons, List.any_nil, Bool.or_eq_true,
        beq_iff_eq] at hcpk
      rcases hcpk with h | h
      · subst h
        exact hcp
      · exact absurd h (by simp)
    · by_cases hcc : pcontains props "chunks_count" = true
      · rw [if_pos hcc] at hck
        simp only [pcontains, List.any_cons, List.any_nil, Bool.or_eq_true,
          beq_iff_eq] at hck
        rcases hck with h | h
        · subst h
          exact hcc
        · exact absurd h (by simp)
      · rw [if_neg hcc] at hck
        exact absurd hck (by simp [pcontains])
    · by_cases hes : pcontains props "execution_status" = true
      · rw [if_pos hes] at hek
        simp only [pcontains, List.any_cons, List.any_nil, Bool.or_eq_true,
          beq_iff_eq] at hek
        rcases hek with h | h
        · subst h
          exact hes
        · exact absurd h (by simp)
      · rw [if_neg hes] at hek
        exact absurd hek (by simp [pcontains])
  · intro k hk
    have hd : pgetDict (vdbToDict vdb props) "chunking_parameters"
        = nestedChunking vdb (pgetDict props "chunking_parameters") := by
      rw [hshape]
      simp [pgetDict, pget_append, pcontains_append, pcontains, pget, List.find?]
    have hk2 : ccontains (pgetDict (vdbToDict vdb props) "chunking_parameters") k = true :=
      hk
    rw [hd] at hk2
    exact nestedChunking_keys hk2

/-- C8 amended witness: a nested-shape blob read back keeps its keys. -/
theorem read_nested_shape_keys_witness :
    pcontains c8wprops "chunking_parameters" = true ∧
    pcontains (readModel vdbBase c8wprops).2 "name" = true ∧
    pcontains c8wprops "name" = true :=
  ⟨by decide, by decide,
    (read_nested_shape_keys vdbBase c8wprops (by decide) (by decide) (by decide)
      (by decide) (by decide)).1 "name" (by decide)⟩

/-- C9 (code bug): the reference shape declares `custom_chunking` inside
`chunking_parameters` and the remote value is true, yet the emitted
nested object does NOT contain the key: the emission statement sits in
an unreachable branch (`if key == "custom_chunking" and not
vdb.custom_chunking` guarding `if vdb.custom_chunking`), contradicting
the source's own adjacent comment; all other declared keys are filled
from the remote fields, as the last conjunct shows for
`embedding_model`. -/
theorem read_nested_custom_chunking_dropped :
    ccontains (pgetDict c9props "chunking_parameters") "custom_chunking" = true ∧
    c9vdb.custom_chunking = true ∧
    ccontains (pgetDict (readModel c9vdb c9props).2 "chunking_parameters")
      "custom_chunking" = false ∧
    cget (pgetDict (readModel c9vdb c9props).2 "chunking_parameters")
      "embedding_model" = c9vdb.embedding_model := by decide

end VDB
